import Mathlib

/-!
Verification of the concurrent SSH-agent service core of the tpm-ssh-agent
repository (src/agent.go).  The Go code is shallowly embedded: each method of
the `Agent` type becomes a Lean function over an explicit environment that
models the external collaborators (file system, key parser, signer factory),
and Go's three-way outcome (value / returned error / runtime panic) becomes
the `GoResult` type.  The mutex-protected operations and the lifecycle are
modelled as explicit transition systems further below.
-/

/-- Outcome of running a piece of Go code: a value, a returned `error`,
or a runtime panic (which in Go aborts the surrounding goroutine). -/
inductive GoResult (α : Type) where
  | ok (val : α)
  | err (msg : String)
  | panicked (msg : String)
deriving DecidableEq

/-- Sequencing of Go statements: an error return or a panic short-circuits. -/
def GoResult.bind {α β : Type} : GoResult α → (α → GoResult β) → GoResult β
  | GoResult.ok a, f => f a
  | GoResult.err m, _ => GoResult.err m
  | GoResult.panicked m, _ => GoResult.panicked m

/-- Lift a plain `(value, error)` Go call (one that cannot panic) into
`GoResult`. -/
def goLift {α : Type} : Except String α → GoResult α
  | Except.ok a => GoResult.ok a
  | Except.error m => GoResult.err m

/-- Byte strings, as Go `[]byte`. -/
abbrev Bytes := List Nat

/-- Abstract token for the injected `func() transport.TPMCloser` factory
(`a.tpm`); the agent never inspects it, only passes it along. -/
structure TpmFactory where
  ident : Nat
deriving DecidableEq

/-- The part of `ssh.PublicKey` that agent.go uses: `Type()` and `Marshal()`.
Byte strings are modelled as `Bytes`. -/
structure SSHPub where
  typ : String
  marshal : Bytes
deriving DecidableEq

/-- The deserialized private key (`*Key` from key.go, outside src/): the
agent only ever forwards it, and derives its SSH public key from it. -/
structure Key where
  raw : Bytes
  sshPub : SSHPub
deriving DecidableEq

/-- An `*ssh.Signature`. -/
structure SSHSignature where
  format : String
  blob : Bytes
deriving DecidableEq

/-- An `ssh.Signer` that also implements `ssh.AlgorithmSigner`, as produced by
`ssh.NewSignerFromSigner(NewTPMSigner(key, tpm))`.  The cryptographic signing
primitive is an external collaborator (spec section 1: out of scope), so
`signWithAlgorithm` is modelled as a total function from the data and the
chosen algorithm name to the produced signature. -/
structure Signer where
  pub : SSHPub
  signWithAlgorithm : Bytes → String → SSHSignature

/-- An `*agent.Key` record as returned by `List()`: `{Format, Blob}`. -/
structure AgentKey where
  format : String
  blob : Bytes
deriving DecidableEq

/-- An `agent.AddedKey` argument (opaque to this agent, which rejects it). -/
structure AddedKey where
  blob : Bytes
deriving DecidableEq

/-- The signing-relevant state of the Go `Agent` struct (src/agent.go:43-49).
Its fields are `mu, tpm, listener, quit, wg`; of these only the immutable
`tpm` factory reference is read by the key-bearing operations — the struct
holds no key material.  The mutex is modelled by the `SysStep` transition
system below and the lifecycle fields by `LifeState`. -/
structure Agent where
  tpm : TpmFactory

/-- External world visible to one call: environment variables, home
directory resolution, file system contents, and the two injected
key/signer constructors (key.go and x/crypto, outside src/). -/
structure Env where
  xdgDataHome : Option String
  userHomeDir : Option String
  readFile : String → Except String (Bytes)
  unmarshalKey : Bytes → Except String Key
  newSignerFromSigner : Key → TpmFactory → Except String Signer

/-- `path.Join` restricted to the non-empty, already-clean components the
agent uses. -/
def pathJoin (a b : String) : String := a ++ "/" ++ b

/-- `getDataHome` (src/agent.go:26-37): `XDG_DATA_HOME` if set, else
`$HOME/.local/share`; panics with "$HOME is not defined" when the home
directory cannot be determined. -/
def getDataHome (e : Env) : GoResult String :=
  match e.xdgDataHome with
  | some s => GoResult.ok s
  | none =>
    match e.userHomeDir with
    | none => GoResult.panicked "$HOME is not defined"
    | some dirname => GoResult.ok (pathJoin dirname ".local/share")

/-- `getAgentStorage` (src/agent.go:39-41). -/
def getAgentStorage (e : Env) : GoResult String :=
  GoResult.bind (getDataHome e) (fun d => GoResult.ok (pathJoin d "tpm-ssh-agent"))

/-- `Agent.signers` (src/agent.go:57-71): read `ssh.key` from storage,
unmarshal it, wrap it in a TPM-backed signer; a singleton list on success. -/
def Agent.signers (a : Agent) (e : Env) : GoResult (List Signer) :=
  GoResult.bind (getAgentStorage e) (fun dir =>
    GoResult.bind (goLift (e.readFile (pathJoin dir "ssh.key"))) (fun b =>
      GoResult.bind (goLift (e.unmarshalKey b)) (fun key =>
        match e.newSignerFromSigner key a.tpm with
        | Except.error m => GoResult.err ("failed to prepare signer: " ++ m)
        | Except.ok s => GoResult.ok [s])))

/-- `Agent.Signers` (src/agent.go:73-77); the mutex bracket around the body is
modelled by the `SysStep` system below. -/
def Agent.Signers (a : Agent) (e : Env) : GoResult (List Signer) :=
  Agent.signers a e

/-- Modelled from the spec: `key.SSHPublicKey()` lives in key.go, which is not
under src/.  Section 4.4 of the spec says `List()` "derives its
PublicKeyRecord" from the KeyDescriptor and lists failure modes only for
unreadable or undeserializable storage, so the derivation is modelled as
always succeeding; the `Except` shape mirrors the `(ssh.PublicKey, error)`
return type visible at the call site (src/agent.go:92). -/
def Key.sshPublicKeyE (k : Key) : Except String SSHPub :=
  Except.ok k.sshPub

/-- `Agent.List` (src/agent.go:79-100): re-read and re-unmarshal the stored
key, then return the single `{Format, Blob}` record of its public key. -/
def Agent.List (a : Agent) (e : Env) : GoResult (List AgentKey) :=
  GoResult.bind (getAgentStorage e) (fun dir =>
    GoResult.bind (goLift (e.readFile (pathJoin dir "ssh.key"))) (fun b =>
      GoResult.bind (goLift (e.unmarshalKey b)) (fun key =>
        match Key.sshPublicKeyE key with
        | Except.error m => GoResult.err m
        | Except.ok pk => GoResult.ok [AgentKey.mk pk.typ pk.marshal])))

/-- The loop body of `SignWithFlags` (src/agent.go:110-117): skip signers
whose marshaled public key differs from the requested one; on a match,
delegate with the requested key's type as the algorithm. -/
def signMatchLoop (signers : List Signer) (key : SSHPub) (data : Bytes) :
    GoResult SSHSignature :=
  match signers with
  | [] => GoResult.err "no private keys match the requested public key"
  | s :: rest =>
    if s.pub.marshal = key.marshal then
      GoResult.ok (s.signWithAlgorithm data key.typ)
    else
      signMatchLoop rest key data

/-- `Agent.SignWithFlags` (src/agent.go:102-118).  The `flags` argument is
accepted and never read, exactly as in the source. -/
def Agent.SignWithFlags (a : Agent) (e : Env) (key : SSHPub) (data : Bytes)
    (flags : Nat) : GoResult SSHSignature :=
  GoResult.bind (Agent.signers a e) (fun signers => signMatchLoop signers key data)

/-- `Agent.Sign` (src/agent.go:120-122). -/
def Agent.Sign (a : Agent) (e : Env) (key : SSHPub) (data : Bytes) :
    GoResult SSHSignature :=
  Agent.SignWithFlags a e key data 0

/-- `ErrOperationUnsupported` (src/agent.go:218). -/
def ErrOperationUnsupported : String := "operation unsupported"

/-- `agent.ErrExtensionUnsupported` from the external x/crypto agent
package. -/
def ErrExtensionUnsupported : String := "agent: extension unsupported"

/-- `Agent.Add` (src/agent.go:220-222), in state-passing form: the returned
environment is the input environment because the body performs no effect. -/
def Agent.Add (a : Agent) (e : Env) (key : AddedKey) : Option String × Env :=
  (some ErrOperationUnsupported, e)

/-- `Agent.Remove` (src/agent.go:223-225). -/
def Agent.Remove (a : Agent) (e : Env) (key : SSHPub) : Option String × Env :=
  (some ErrOperationUnsupported, e)

/-- `Agent.Lock` (src/agent.go:229-231). -/
def Agent.Lock (a : Agent) (e : Env) (passphrase : Bytes) : Option String × Env :=
  (some ErrOperationUnsupported, e)

/-- `Agent.Unlock` (src/agent.go:232-234). -/
def Agent.Unlock (a : Agent) (e : Env) (passphrase : Bytes) : Option String × Env :=
  (some ErrOperationUnsupported, e)

/-- `Agent.Extension` (src/agent.go:214-216): `(nil, agent.ErrExtensionUnsupported)`
for every extension type and contents. -/
def Agent.Extension (a : Agent) (e : Env) (extensionType : String)
    (contents : Bytes) : (Option (Bytes) × Option String) × Env :=
  ((none, some ErrExtensionUnsupported), e)

/-- `Agent.Close` (src/agent.go:53-55): returns nil. -/
def Agent.Close (a : Agent) : Option String := none

/-!
Lifecycle: `Stop` and the SIGHUP handler loop of `execAgent`.
-/

/-- The lifecycle fields of the Go `Agent`: whether `quit` has been closed
and whether the listener has been closed. -/
structure LifeState where
  quitClosed : Bool
  listenerClosed : Bool
deriving DecidableEq

/-- Go semantics of `close(ch)`: closing an already-closed channel panics
with "close of closed channel". -/
def closeChan (alreadyClosed : Bool) : GoResult Unit :=
  if alreadyClosed then GoResult.panicked "close of closed channel"
  else GoResult.ok ()

/-- `Agent.Stop` (src/agent.go:150-155): `close(a.quit)`, then
`a.listener.Close()`, then `a.wg.Wait()` (joining has no further state
effect here). -/
def Agent.Stop (st : LifeState) : GoResult LifeState :=
  match closeChan st.quitClosed with
  | GoResult.panicked m => GoResult.panicked m
  | _ => GoResult.ok (LifeState.mk true true)

/-- The signal-handler loop installed by `execAgent` (src/agent.go:194-198):
`for range c { a.Stop() }` — one `Stop` call per delivered SIGHUP. -/
def sigHandlerLoop (st : LifeState) : Nat → GoResult LifeState
  | 0 => GoResult.ok st
  | Nat.succ n =>
    match Agent.Stop st with
    | GoResult.ok st2 => sigHandlerLoop st2 n
    | GoResult.err m => GoResult.err m
    | GoResult.panicked m => GoResult.panicked m

/-- A fresh agent's lifecycle state as built by `NewAgent`. -/
def initialLife : LifeState := LifeState.mk false false

/-- The lifecycle state after one successful `Stop()`. -/
def stoppedLife : LifeState := LifeState.mk true true

/-!
The accept loop (src/agent.go:157-183).
-/

/-- Outcome of one `listener.Accept()` call: a connection, or an error that
either is or is not `Temporary()`. -/
inductive AcceptOutcome where
  | conn
  | acceptError (temporary : Bool)
deriving DecidableEq

/-- What one iteration of the accept loop does next. -/
inductive ServeStep where
  | spawnedHandler
  | loggedSleptContinued (sleepSeconds : Nat)
  | exitedLoop
  | fatalTerminated
deriving DecidableEq

/-- One iteration of `Agent.serve` (src/agent.go:159-182): on success spawn a
handler; on a temporary error log, sleep 1s and continue; otherwise exit
cleanly when `quit` is closed (the `select` case is ready) and terminate the
process via `log.Fatalln` when it is not. -/
def serveIteration (r : AcceptOutcome) (quitClosed : Bool) : ServeStep :=
  match r with
  | AcceptOutcome.conn => ServeStep.spawnedHandler
  | AcceptOutcome.acceptError temp =>
    if temp then ServeStep.loggedSleptContinued 1
    else if quitClosed then ServeStep.exitedLoop
    else ServeStep.fatalTerminated

/-!
Call sequences (no caching of key material across calls).
-/

/-- A key-bearing request arriving over some connection. -/
inductive AgentCall where
  | listKeys
  | signReq (key : SSHPub) (data : Bytes)
  | signWithFlagsReq (key : SSHPub) (data : Bytes) (flags : Nat)

/-- The reply to one key-bearing request. -/
inductive CallResult where
  | keys (r : GoResult (List AgentKey))
  | sig (r : GoResult SSHSignature)

/-- Dispatch one request against the agent, returning the reply together with
the agent state after the call; the source methods never assign to the
receiver, so the state is passed through unchanged field by field. -/
def dispatchCall (a : Agent) (e : Env) : AgentCall → CallResult × Agent
  | AgentCall.listKeys => (CallResult.keys (Agent.List a e), a)
  | AgentCall.signReq key data => (CallResult.sig (Agent.Sign a e key data), a)
  | AgentCall.signWithFlagsReq key data flags =>
      (CallResult.sig (Agent.SignWithFlags a e key data flags), a)

/-- Run a sequence of key-bearing calls, each observing its own snapshot of
the external world (the storage may change between calls), threading the
agent state from call to call. -/
def runCalls (a : Agent) : List (Env × AgentCall) → List CallResult
  | [] => []
  | (e, c) :: rest =>
      (dispatchCall a e c).1 :: runCalls (dispatchCall a e c).2 rest

/-- Dispatching never changes the agent state: no descriptor is retained. -/
theorem dispatchCall_state (a : Agent) (e : Env) (c : AgentCall) :
    (dispatchCall a e c).2 = a := by
  cases c <;> rfl

/-!
The exclusive lock around the key-bearing operations
(`a.mu.Lock(); defer a.mu.Unlock()` in `Signers`, `List` and
`SignWithFlags`, src/agent.go:74-75, 80-81, 103-104): an interleaving
semantics for any number of concurrent connections, each running one
key-bearing operation.
-/

/-- One atomic action of a thread running a key-bearing operation. -/
inductive OpAction where
  | lock
  | internal (tag : Nat)
  | unlock
deriving DecidableEq

/-- The shape shared by `Signers`, `List`, `Sign` and `SignWithFlags`:
`mu.Lock()` is the first action and the deferred `mu.Unlock()` is the last,
with the whole body (an arbitrary list of steps) in between. -/
def keyBearingProgram (body : List Nat) : List OpAction :=
  OpAction.lock :: (body.map OpAction.internal ++ [OpAction.unlock])

/-- Global state: whether `a.mu` is held, and each thread's remaining
actions. -/
structure Sys where
  locked : Bool
  threads : List (List OpAction)

/-- Interleaving small-step semantics.  `sync.Mutex.Lock` blocks until the
mutex is free; `Unlock` releases it (Go does not track an owner, so the
unlock step is enabled whenever a thread reaches its `unlock` action). -/
inductive SysStep : Sys → Sys → Prop where
  | lockStep (pre post : List (List OpAction)) (rest : List OpAction) :
      SysStep (Sys.mk false (pre ++ (OpAction.lock :: rest) :: post))
        (Sys.mk true (pre ++ rest :: post))
  | internalStep (b : Bool) (pre post : List (List OpAction)) (tag : Nat)
      (rest : List OpAction) :
      SysStep (Sys.mk b (pre ++ (OpAction.internal tag :: rest) :: post))
        (Sys.mk b (pre ++ rest :: post))
  | unlockStep (b : Bool) (pre post : List (List OpAction)) (rest : List OpAction) :
      SysStep (Sys.mk b (pre ++ (OpAction.unlock :: rest) :: post))
        (Sys.mk false (pre ++ rest :: post))

/-- A thread is inside its operation (holding the lock) when it has executed
`lock` but not yet its final `unlock`: its remaining actions start with an
internal step or with `unlock`. -/
def inCritical : List OpAction → Bool
  | [] => false
  | OpAction.lock :: _ => false
  | OpAction.internal _ :: _ => true
  | OpAction.unlock :: _ => true

/-- Number of threads currently inside a key-bearing operation. -/
def insideCount (ts : List (List OpAction)) : Nat :=
  List.countP inCritical ts

/-- The system started with one key-bearing operation per connection. -/
def initialSys (bodies : List (List Nat)) : Sys :=
  Sys.mk false (bodies.map keyBearingProgram)

/-- Every thread's remaining actions are a stage of a key-bearing program:
not yet started, inside the lock, or finished. -/
def ThreadOK (r : List OpAction) : Prop :=
  (∃ tags : List Nat, r = OpAction.lock :: (tags.map OpAction.internal ++ [OpAction.unlock]))
  ∨ (∃ tags : List Nat, r = tags.map OpAction.internal ++ [OpAction.unlock])
  ∨ r = []

/-- The inductive invariant: all threads are at a legal stage, and the number
of threads inside the lock is exactly one when the mutex is held and zero
when it is free. -/
def SysInv (s : Sys) : Prop :=
  (∀ r ∈ s.threads, ThreadOK r) ∧
    List.countP inCritical s.threads = (if s.locked then 1 else 0)

theorem inCritical_insideShape (tags : List Nat) :
    inCritical (tags.map OpAction.internal ++ [OpAction.unlock]) = true := by
  cases tags <;> rfl

theorem inCritical_lock (rest : List OpAction) :
    inCritical (OpAction.lock :: rest) = false := rfl

theorem inCritical_internal (tag : Nat) (rest : List OpAction) :
    inCritical (OpAction.internal tag :: rest) = true := rfl

theorem inCritical_unlock (rest : List OpAction) :
    inCritical (OpAction.unlock :: rest) = true := rfl

theorem inCritical_nil : inCritical ([] : List OpAction) = false := rfl

theorem countP_middle (pre post : List (List OpAction)) (r : List OpAction) :
    List.countP inCritical (pre ++ r :: post)
      = List.countP inCritical pre + List.countP inCritical post
        + (if inCritical r then 1 else 0) := by
  simp [List.countP_append, List.countP_cons]
  omega

theorem threadOK_insideShape (tags : List Nat) :
    ThreadOK (tags.map OpAction.internal ++ [OpAction.unlock]) :=
  Or.inr (Or.inl ⟨tags, rfl⟩)

theorem threadOK_nil : ThreadOK ([] : List OpAction) :=
  Or.inr (Or.inr rfl)

theorem threadOK_lock_head {rest : List OpAction}
    (h : ThreadOK (OpAction.lock :: rest)) :
    ∃ tags : List Nat, rest = tags.map OpAction.internal ++ [OpAction.unlock] := by
  rcases h with ⟨tags, htags⟩ | ⟨tags, htags⟩ | habs
  · exact ⟨tags, by injection htags⟩
  · cases tags with
    | nil => simp at htags
    | cons t ts => simp at htags
  · simp at habs

theorem threadOK_internal_head {tag : Nat} {rest : List OpAction}
    (h : ThreadOK (OpAction.internal tag :: rest)) :
    ∃ tags : List Nat, rest = tags.map OpAction.internal ++ [OpAction.unlock] := by
  rcases h with ⟨tags, htags⟩ | ⟨tags, htags⟩ | habs
  · simp at htags
  · cases tags with
    | nil => simp at htags
    | cons t ts =>
        refine ⟨ts, ?_⟩
        simp at htags
        exact htags.2
  · simp at habs

theorem threadOK_unlock_head {rest : List OpAction}
    (h : ThreadOK (OpAction.unlock :: rest)) : rest = [] := by
  rcases h with ⟨tags, htags⟩ | ⟨tags, htags⟩ | habs
  · simp at htags
  · cases tags with
    | nil =>
        simp at htags
        exact htags
    | cons t ts => simp at htags
  · simp at habs

theorem threadsOK_update {pre post : List (List OpAction)} {r r2 : List OpAction}
    (h : ∀ q ∈ pre ++ r :: post, ThreadOK q) (h2 : ThreadOK r2) :
    ∀ q ∈ pre ++ r2 :: post, ThreadOK q := by
  intro q hq
  rcases List.mem_append.mp hq with hq | hq
  · exact h q (List.mem_append.mpr (Or.inl hq))
  · rcases List.mem_cons.mp hq with rfl | hq
    · exact h2
    · exact h q (List.mem_append.mpr (Or.inr (List.mem_cons_of_mem _ hq)))

theorem sysInv_step {s t : Sys} (hs : SysInv s) (hstep : SysStep s t) :
    SysInv t := by
  rcases hs with ⟨hok, hc⟩
  cases hstep with
  | lockStep pre post rest =>
      have hmem : (OpAction.lock :: rest) ∈ pre ++ (OpAction.lock :: rest) :: post :=
        List.mem_append.mpr (Or.inr (List.mem_cons_self _ _))
      obtain ⟨tags, rfl⟩ := threadOK_lock_head (hok _ hmem)
      refine ⟨threadsOK_update hok (threadOK_insideShape tags), ?_⟩
      rw [countP_middle] at hc ⊢
      simp only [inCritical_lock, inCritical_insideShape] at hc ⊢
      simp at hc ⊢
      exact hc
  | internalStep b pre post tag rest =>
      have hmem : (OpAction.internal tag :: rest) ∈
          pre ++ (OpAction.internal tag :: rest) :: post :=
        List.mem_append.mpr (Or.inr (List.mem_cons_self _ _))
      obtain ⟨tags, rfl⟩ := threadOK_internal_head (hok _ hmem)
      refine ⟨threadsOK_update hok (threadOK_insideShape tags), ?_⟩
      rw [countP_middle] at hc ⊢
      simp only [inCritical_internal, inCritical_insideShape] at hc ⊢
      exact hc
  | unlockStep b pre post rest =>
      have hmem : (OpAction.unlock :: rest) ∈
          pre ++ (OpAction.unlock :: rest) :: post :=
        List.mem_append.mpr (Or.inr (List.mem_cons_self _ _))
      have hrest := threadOK_unlock_head (hok _ hmem)
      subst hrest
      refine ⟨threadsOK_update hok threadOK_nil, ?_⟩
      rw [countP_middle] at hc ⊢
      simp only [inCritical_unlock, inCritical_nil] at hc ⊢
      cases b
      · simp at hc
      · simp at hc ⊢
        exact hc

theorem sysInv_initial (bodies : List (List Nat)) : SysInv (initialSys bodies) := by
  refine ⟨?_, ?_⟩
  · intro q hq
    simp [initialSys] at hq
    obtain ⟨body, hb, rfl⟩ := hq
    exact Or.inl ⟨body, rfl⟩
  · simp only [initialSys]
    rw [List.countP_eq_zero.mpr]
    · rfl
    · intro q hq
      obtain ⟨body, hb, rfl⟩ := List.mem_map.mp hq
      simp [keyBearingProgram, inCritical]

theorem sysInv_reachable {s t : Sys}
    (h : Relation.ReflTransGen SysStep s t) (hs : SysInv s) : SysInv t := by
  induction h with
  | refl => exact hs
  | tail hab hbc ih => exact sysInv_step ih hbc

/-!
Concrete fixtures used by the witnesses.
-/

/-- A sample stored public key. -/
def pubA : SSHPub := SSHPub.mk "ssh-ed25519" [1, 2, 3]

/-- A sample deserialized key whose public part is `pubA`. -/
def keyA : Key := Key.mk [9, 9] pubA

/-- A sample signer bound to `pubA`. -/
def signerA : Signer := Signer.mk pubA (fun data alg => SSHSignature.mk alg data)

/-- A sample TPM factory token. -/
def tpmA : TpmFactory := TpmFactory.mk 0

/-- A sample agent. -/
def agentA : Agent := Agent.mk tpmA

/-- An environment with `XDG_DATA_HOME` set and a readable, deserializable
stored key. -/
def envA : Env := Env.mk (some "xdg") (some "home")
  (fun _ => Except.ok [7]) (fun _ => Except.ok keyA)
  (fun _ _ => Except.ok signerA)

/-- An environment where `XDG_DATA_HOME` is unset and the home directory
cannot be determined. -/
def envNoHome : Env := Env.mk none none
  (fun _ => Except.error "unreadable") (fun _ => Except.error "bad")
  (fun _ _ => Except.error "no signer")

/-!
The claims.
-/

/-- Claim C1: for any number of concurrent connections, each running one
key-bearing operation (List, Sign, SignWithFlags — all of the shape
`mu.Lock(); body; deferred mu.Unlock()`), every state reachable by
interleaving their atomic steps has at most one thread inside its operation:
the exclusive lock is never held by two operations at once, so key-bearing
operations never overlap. -/
theorem keyOps_mutual_exclusion (bodies : List (List Nat)) (s : Sys)
    (h : Relation.ReflTransGen SysStep (initialSys bodies) s) :
    insideCount s.threads ≤ 1 := by
  have hinv := sysInv_reachable h (sysInv_initial bodies)
  have h2 := hinv.2
  unfold insideCount
  rw [h2]
  cases hlk : s.locked <;> simp

/-- Two concurrent key-bearing operations, after the first one acquires the
lock: at most one thread is inside. -/
theorem keyOps_mutual_exclusion_witness :
    insideCount [[OpAction.internal 0, OpAction.unlock],
      [OpAction.lock, OpAction.internal 1, OpAction.unlock]] ≤ 1 :=
  keyOps_mutual_exclusion [[0], [1]]
    (Sys.mk true [[OpAction.internal 0, OpAction.unlock],
      [OpAction.lock, OpAction.internal 1, OpAction.unlock]])
    (Relation.ReflTransGen.single
      (SysStep.lockStep [] [[OpAction.lock, OpAction.internal 1, OpAction.unlock]]
        [OpAction.internal 0, OpAction.unlock]))

/-- Claim C2 (refuted by the code): `Stop()` is not idempotent.  The first
call succeeds, but a second call — e.g. triggered by a second SIGHUP through
the `for range c { a.Stop() }` loop of `execAgent` — executes `close(a.quit)`
on an already-closed channel, which panics in Go instead of being a safe
no-op. -/
theorem stop_second_call_panics :
    Agent.Stop initialLife = GoResult.ok stoppedLife
    ∧ Agent.Stop stoppedLife = GoResult.panicked "close of closed channel"
    ∧ sigHandlerLoop initialLife 1 = GoResult.ok stoppedLife
    ∧ sigHandlerLoop initialLife 2 = GoResult.panicked "close of closed channel" :=
  ⟨rfl, rfl, rfl, rfl⟩

/-- Claim C3: when the stored key loads successfully (the signer list is the
singleton `[s]`), `SignWithFlags` returns a signature iff the requested
key's marshaled blob is byte-for-byte equal to the stored signer's
public-key blob; on any mismatch it returns exactly the error
"no private keys match the requested public key" and no signature; on exact
match it delegates to the signer using the requested key's type as the
algorithm selector. -/
theorem signWithFlags_match_spec (a : Agent) (e : Env) (key : SSHPub)
    (data : Bytes) (flags : Nat) (s : Signer)
    (h : Agent.signers a e = GoResult.ok [s]) :
    ((∃ sig, Agent.SignWithFlags a e key data flags = GoResult.ok sig)
        ↔ key.marshal = s.pub.marshal)
    ∧ (key.marshal ≠ s.pub.marshal →
        Agent.SignWithFlags a e key data flags
          = GoResult.err "no private keys match the requested public key")
    ∧ (key.marshal = s.pub.marshal →
        Agent.SignWithFlags a e key data flags
          = GoResult.ok (s.signWithAlgorithm data key.typ)) := by
  have hrw : Agent.SignWithFlags a e key data flags
      = signMatchLoop [s] key data := by
    unfold Agent.SignWithFlags
    rw [h]
    rfl
  by_cases hm : s.pub.marshal = key.marshal
  · refine ⟨⟨fun _ => hm.symm, fun _ => ?_⟩, fun hne => absurd hm.symm hne, fun _ => ?_⟩
    · exact ⟨s.signWithAlgorithm data key.typ, by simp [hrw, signMatchLoop, hm]⟩
    · simp [hrw, signMatchLoop, hm]
  · have hm2 : ¬ key.marshal = s.pub.marshal := fun hh => hm hh.symm
    refine ⟨⟨?_, fun hh => absurd hh hm2⟩, fun _ => ?_, fun hh => absurd hh hm2⟩
    · intro hex
      obtain ⟨sig, hsig⟩ := hex
      rw [hrw] at hsig
      simp [signMatchLoop, hm] at hsig
    · simp [hrw, signMatchLoop, hm]

/-- On exact match the sample agent signs with the requested key's type. -/
theorem signWithFlags_match_spec_witness :
    Agent.SignWithFlags agentA envA pubA [5] 0
      = GoResult.ok (signerA.signWithAlgorithm [5] pubA.typ) :=
  (signWithFlags_match_spec agentA envA pubA [5] 0 signerA rfl).2.2 rfl

/-- Claim C4: in the accept loop, a transient (temporary) accept error is
logged and followed by exactly one fixed 1-second sleep, and the loop
continues; on any other accept error the loop exits cleanly when the
shutdown signal is set and terminates the process when it is not. -/
theorem serve_accept_error_policy :
    (∀ q : Bool, serveIteration (AcceptOutcome.acceptError true) q
        = ServeStep.loggedSleptContinued 1)
    ∧ serveIteration (AcceptOutcome.acceptError false) true = ServeStep.exitedLoop
    ∧ serveIteration (AcceptOutcome.acceptError false) false
        = ServeStep.fatalTerminated :=
  ⟨fun _ => rfl, rfl, rfl⟩

/-- Claim C5: whenever storage resolves, the key file is readable and its
bytes deserialize, `List()` returns exactly one record whose format is the
deserialized key's declared public-key type and whose blob is its marshaled
public-key bytes; if the file is unreadable or does not deserialize,
`List()` fails with exactly that error. -/
theorem list_single_record_spec (a : Agent) (e : Env) (dir : String)
    (hdir : getAgentStorage e = GoResult.ok dir) :
    (∀ b k, e.readFile (pathJoin dir "ssh.key") = Except.ok b →
        e.unmarshalKey b = Except.ok k →
        Agent.List a e = GoResult.ok [AgentKey.mk k.sshPub.typ k.sshPub.marshal])
    ∧ (∀ m, e.readFile (pathJoin dir "ssh.key") = Except.error m →
        Agent.List a e = GoResult.err m)
    ∧ (∀ b m, e.readFile (pathJoin dir "ssh.key") = Except.ok b →
        e.unmarshalKey b = Except.error m →
        Agent.List a e = GoResult.err m) := by
  refine ⟨?_, ?_, ?_⟩
  · intro b k hb hk
    simp [Agent.List, hdir, GoResult.bind, goLift, hb, hk, Key.sshPublicKeyE]
  · intro m hm
    simp [Agent.List, hdir, GoResult.bind, goLift, hm]
  · intro b m hb hm
    simp [Agent.List, hdir, GoResult.bind, goLift, hb, hm]

/-- The sample agent lists exactly the one stored public-key record. -/
theorem list_single_record_spec_witness :
    Agent.List agentA envA
      = GoResult.ok [AgentKey.mk keyA.sshPub.typ keyA.sshPub.marshal] :=
  (list_single_record_spec agentA envA (pathJoin "xdg" "tpm-ssh-agent") rfl).1
    [7] keyA rfl rfl

/-- Claim C6: `Add`, `Remove`, `Lock` and `Unlock` return the fixed
"operation unsupported" error for every input and leave the environment (in
particular the on-disk key state) unchanged, and `Extension` returns the
standard "extension unsupported" error for every extension type and
contents. -/
theorem unsupported_ops_spec (a : Agent) (e : Env) :
    (∀ k, Agent.Add a e k = (some ErrOperationUnsupported, e))
    ∧ (∀ pk, Agent.Remove a e pk = (some ErrOperationUnsupported, e))
    ∧ (∀ pw, Agent.Lock a e pw = (some ErrOperationUnsupported, e))
    ∧ (∀ pw, Agent.Unlock a e pw = (some ErrOperationUnsupported, e))
    ∧ (∀ t c, Agent.Extension a e t c = ((none, some ErrExtensionUnsupported), e)) :=
  ⟨fun _ => rfl, fun _ => rfl, fun _ => rfl, fun _ => rfl, fun _ _ => rfl⟩

/-- Claim C7: `Sign(key, data)` is exactly `SignWithFlags(key, data, 0)`. -/
theorem sign_eq_signWithFlags_zero (a : Agent) (e : Env) (key : SSHPub)
    (data : Bytes) :
    Agent.Sign a e key data = Agent.SignWithFlags a e key data 0 := rfl

/-- Claim C8: the agent caches no key material across calls — running any
history of key-bearing calls, each against its own snapshot of the external
world, the result of the final call is exactly what that call computes from
its own snapshot alone; the threaded agent state never changes. -/
theorem calls_independent_of_history (a : Agent) (hist : List (Env × AgentCall))
    (e : Env) (c : AgentCall) :
    runCalls a (hist ++ [(e, c)]) = runCalls a hist ++ [(dispatchCall a e c).1] := by
  induction hist generalizing a with
  | nil => rfl
  | cons hd tl ih =>
      cases hd with
      | mk e2 c2 => simp [runCalls, dispatchCall_state, ih]

/-- Claim C9: the `flags` argument of `SignWithFlags` is ignored — any two
flags values give identical results; the algorithm comes only from the
requested key's type. -/
theorem signWithFlags_flags_irrelevant (a : Agent) (e : Env) (key : SSHPub)
    (data : Bytes) (f1 f2 : Nat) :
    Agent.SignWithFlags a e key data f1 = Agent.SignWithFlags a e key data f2 := rfl

/-- Claim C10: if `XDG_DATA_HOME` is unset and the user's home directory
cannot be determined, every key-bearing operation panics with
"$HOME is not defined" while resolving the storage path, instead of
returning an error to the caller. -/
theorem keyOps_panic_without_home (a : Agent) (e : Env)
    (h1 : e.xdgDataHome = none) (h2 : e.userHomeDir = none) :
    Agent.List a e = GoResult.panicked "$HOME is not defined"
    ∧ (∀ key data flags, Agent.SignWithFlags a e key data flags
        = GoResult.panicked "$HOME is not defined")
    ∧ (∀ key data, Agent.Sign a e key data
        = GoResult.panicked "$HOME is not defined")
    ∧ Agent.Signers a e = GoResult.panicked "$HOME is not defined" := by
  have hdh : getDataHome e = GoResult.panicked "$HOME is not defined" := by
    simp [getDataHome, h1, h2]
  refine ⟨?_, ?_, ?_, ?_⟩
  · simp [Agent.List, getAgentStorage, hdh, GoResult.bind]
  · intro key data flags
    simp [Agent.SignWithFlags, Agent.signers, getAgentStorage, hdh, GoResult.bind]
  · intro key data
    simp [Agent.Sign, Agent.SignWithFlags, Agent.signers, getAgentStorage, hdh,
      GoResult.bind]
  · simp [Agent.Signers, Agent.signers, getAgentStorage, hdh, GoResult.bind]

/-- With no XDG_DATA_HOME and no home directory, listing panics. -/
theorem keyOps_panic_without_home_witness :
    Agent.List agentA envNoHome = GoResult.panicked "$HOME is not defined" :=
  (keyOps_panic_without_home agentA envNoHome rfl rfl).1
